import Mathlib

/-!
Verification of the CEOpenOrchestrator workflow state machine.

This file gives a shallow embedding, in Lean 4, of the state-machine and
signal-management core of the CEOpenOrchestrator repository (the module
holding getSignals / createSignal / getReviewStatus / determinePhase /
loadState / saveState / session save-restore, together with the dispatch
handlers of the interactive orchestrator), and proves or refutes the
specified properties of that core.

Modelling conventions:
  - The ambient filesystem state that the source reads through existsSync /
    readFileSync / readdirSync is reified as an explicit structure `Fs`
    threaded through every operation.
  - A directory that may or may not exist is an `Option (List String)` of
    its file names; `none` means the directory is absent.
  - A file read that may fail (missing file, I/O error, JSON parse error)
    is an `Option`; every catch-block of the source maps to the `none` arm.
  - JavaScript `String.prototype.includes`, `endsWith` and single-occurrence
    `replace` are modelled character-exactly over `List Char`.
-/

namespace CEOrch

/-- Boolean test that the first list is a prefix of the second, written by
recursion so that every later proof can unfold it step by step.  It models
the anchored comparison used by the JavaScript substring operations. -/
def leadsWith : List Char → List Char → Bool
  | [], _ => true
  | _ :: _, [] => false
  | p :: ps, c :: cs => p == c && leadsWith ps cs

/-- Boolean substring test: the pattern occurs somewhere in the subject.
Models JavaScript String.prototype.includes (searched left to right). -/
def hasSub (pat : List Char) : List Char → Bool
  | [] => leadsWith pat []
  | c :: cs => leadsWith pat (c :: cs) || hasSub pat cs

/-- Boolean suffix test, via prefix on the reversals.  Models JavaScript
String.prototype.endsWith. -/
def trailsWith (pat s : List Char) : Bool :=
  leadsWith pat.reverse s.reverse

/-- Remove the first (leftmost) occurrence of the pattern, leaving the list
unchanged when the pattern does not occur.  Models the single-replacement
semantics of JavaScript String.prototype.replace with a string pattern and
an empty replacement, as used by getSignals on marker file names. -/
def removeFirstSub (pat : List Char) : List Char → List Char
  | [] => []
  | c :: cs =>
      if leadsWith pat (c :: cs) then (c :: cs).drop pat.length
      else c :: removeFirstSub pat cs

/-- String-level wrapper of `hasSub`: `strIncludes s pat` is
JavaScript `s.includes(pat)`. -/
def strIncludes (s pat : String) : Bool :=
  hasSub pat.toList s.toList

/-- String-level wrapper of `trailsWith` specialised to the ".done" marker
suffix: JavaScript `file.endsWith(".done")`. -/
def endsDone (file : String) : Bool :=
  trailsWith ".done".toList file.toList

/-- String-level wrapper of `removeFirstSub` specialised to ".done":
JavaScript `file.replace(".done", "")`, which removes only the FIRST
occurrence of ".done" in the file name. -/
def stripDone (file : String) : String :=
  String.mk (removeFirstSub ".done".toList file.toList)

/-- Workflow phase enumeration, from the `Phase` union type of the source. -/
inductive Phase where
  | init
  | planning
  | implementing
  | reviewing
  | refining
  | compounding
  | complete
deriving DecidableEq, Repr

instance : BEq Phase := ⟨fun a b => decide (a = b)⟩

/-- Review outcome enumeration, from the `ReviewStatus` union type of the
source. -/
inductive ReviewStatus where
  | PASS
  | PASS_WITH_WARNINGS
  | FAIL
  | PENDING
deriving DecidableEq, Repr

instance : BEq ReviewStatus := ⟨fun a b => decide (a = b)⟩

/-- The persisted workflow state record, from the `WorkflowState` interface
of the source.  The `signals` field is the denormalized cache of the signal
store: the record of names mapped to true is modelled as the list of those
names. -/
structure WorkflowState where
  phase : Phase
  iteration : Nat
  featureName : Option String := none
  branchName : Option String := none
  commitCount : Nat
  signals : List String
  lastUpdated : String
deriving DecidableEq, Repr

/-- A branch-scoped session snapshot directory, as written by
saveSessionToBranch: an optional persisted state file (with its parse
result) and an optional signals subdirectory. -/
structure SessionSnap where
  stateFileExists : Bool
  stateFileParse : Option WorkflowState
  sessionSignals : Option (List String)
deriving DecidableEq, Repr

/-- The ambient filesystem state read and written by the state module.
The signals directory is `none` when absent; a `some` list holds the file
names it contains.  `reviewFileContent` is `none` when reading REVIEW.md
raises (the catch-arm of the source); `stateFileParse` is `none` when
reading or JSON-parsing state.json raises.  `now` is the ambient clock
value used for the `lastUpdated` stamp. -/
structure Fs where
  signalsDir : Option (List String)
  reviewFileExists : Bool
  reviewFileContent : Option String
  planFileExists : Bool
  stateFileExists : Bool
  stateFileParse : Option WorkflowState
  sessions : List (String × SessionSnap)
  now : String
deriving DecidableEq, Repr

/-- Source getInitialState: the freshly-initialized workflow record. -/
def getInitialState (now : String) : WorkflowState :=
  { phase := .init
    iteration := 1
    commitCount := 0
    signals := []
    lastUpdated := now }

/-- Source loadState: return the parsed state file, or the initial record
when the file is absent or unreadable/unparsable (the catch-arm). -/
def loadState (fs : Fs) : WorkflowState :=
  if !fs.stateFileExists then getInitialState fs.now
  else
    match fs.stateFileParse with
    | some st => st
    | none => getInitialState fs.now

/-- Net filesystem effect of source saveState: ensure the signals directory
exists, stamp lastUpdated with the current time, and leave the state file
holding the updated record.  The operation-level trace of saveState (the
temp-file write, copy and unlink) is modelled separately by saveStateOps. -/
def saveStateFs (state : WorkflowState) (fs : Fs) : Fs :=
  { fs with
      signalsDir := some (fs.signalsDir.getD [])
      stateFileExists := true
      stateFileParse := some { state with lastUpdated := fs.now } }

/-- Source getSignals: enumerate the signals directory (empty when absent),
keep the files ending in ".done", and report each with its first ".done"
substring removed.  Duplicate names are harmless since the result models a
record whose present keys all map to true. -/
def getSignals (fs : Fs) : List String :=
  match fs.signalsDir with
  | none => []
  | some files => (files.filter (fun f => endsDone f)).map (fun f => stripDone f)

/-- Name set of a snapshot signals directory, by the same enumeration rule
as getSignals (used when comparing a restored live set with a snapshot). -/
def dirSignalNames (dir : Option (List String)) : List String :=
  match dir with
  | none => []
  | some files => (files.filter (fun f => endsDone f)).map (fun f => stripDone f)

/-- Add one file name to a directory listing; writing an existing file
overwrites it, so the listing gains the name only when absent. -/
def addFile (files : List String) (f : String) : List String :=
  if files.contains f then files else files ++ [f]

/-- Source createSignal: create the signals directory when absent and write
the marker file named by the signal name with ".done" appended. -/
def createSignal (name : String) (fs : Fs) : Fs :=
  { fs with signalsDir := some (addFile (fs.signalsDir.getD []) (name ++ ".done")) }

/-- Source clearAllSignals: when the signals directory exists, delete every
file ending in ".done" and keep the rest. -/
def clearAllSignals (fs : Fs) : Fs :=
  match fs.signalsDir with
  | none => fs
  | some files => { fs with signalsDir := some (files.filter (fun f => !endsDone f)) }

/-- Source getReviewStatus: PENDING when REVIEW.md is absent, when the live
review signal is absent, or when the read raises; otherwise classify the
text by substring search, checking the pass marker before the fail marker.
The function is total: every failure arm of the source returns PENDING. -/
def getReviewStatus (fs : Fs) : ReviewStatus :=
  if !fs.reviewFileExists then .PENDING
  else if !((getSignals fs).contains "review") then .PENDING
  else
    match fs.reviewFileContent with
    | none => .PENDING
    | some content =>
      if strIncludes content "STATUS: PASS" then
        if strIncludes content "PASS_WITH_WARNINGS" ||
            (strIncludes content "Warnings" && strIncludes content "Non-blocking") then
          .PASS_WITH_WARNINGS
        else .PASS
      else if strIncludes content "STATUS: FAIL" then .FAIL
      else .PENDING

/-- The refine-signal names checked by the phase engine. -/
def refineSignalNames : List String :=
  ["backend-refine", "frontend-refine", "tests-refine"]

/-- Source determinePhase: derive the phase from the signal record passed
by the caller, re-reading the review classification and the PLAN.md
existence from the ambient filesystem exactly as the source does. -/
def determinePhase (signals : List String) (fs : Fs) : Phase :=
  if signals.contains "compound" || signals.contains "pr" then .complete
  else
    let reviewStatus := getReviewStatus fs
    if signals.contains "compound" then .compounding
    else if signals.contains "review" &&
        (reviewStatus == .PASS || reviewStatus == .PASS_WITH_WARNINGS) then .compounding
    else
      let allRefinesDone := refineSignalNames.all (fun s => signals.contains s)
      if signals.contains "review" && reviewStatus == .FAIL then
        if allRefinesDone then .reviewing else .refining
      else if signals.contains "backend" && signals.contains "frontend" &&
          signals.contains "tests" then .reviewing
      else if signals.contains "plan" || fs.planFileExists then
        if signals.contains "plan" then .implementing else .planning
      else .init

/-- Source updateStateFromSignals: load the state, re-read the signals,
recompute the phase, cache the signals on the record and persist it. -/
def updateStateFromSignals (fs : Fs) : WorkflowState × Fs :=
  let state := loadState fs
  let signals := getSignals fs
  let newPhase := determinePhase signals fs
  let state1 := if newPhase != state.phase then { state with phase := newPhase } else state
  let state2 := { state1 with signals := signals }
  (state2, saveStateFs state2 fs)

/-- Source handleDispatchRefine from the orchestrator: refuse (returning
state and filesystem untouched) unless the current review outcome is FAIL,
refuse when the iteration cap of 3 is reached; otherwise increment the
iteration, dispatch the refine workers (a tmux keystroke send that touches
neither signals nor state), set the phase to refining and persist.  The
timeline append of logPhaseChange writes only the event log, which is
outside the signal and state stores. -/
def handleDispatchRefine (fs : Fs) (state : WorkflowState) : WorkflowState × Fs :=
  let reviewStatus := getReviewStatus fs
  if reviewStatus != .FAIL then (state, fs)
  else if state.iteration ≥ 3 then (state, fs)
  else
    let state1 := { state with iteration := state.iteration + 1 }
    let state2 := { state1 with phase := .refining }
    (state2, saveStateFs state2 fs)

/-- Source handleDispatchCompound from the orchestrator: refuse unless the
review outcome is PASS or PASS_WITH_WARNINGS; otherwise create the
"compound" signal, set the phase to compounding and persist. -/
def handleDispatchCompound (fs : Fs) (state : WorkflowState) : WorkflowState × Fs :=
  let reviewStatus := getReviewStatus fs
  if reviewStatus != .PASS && reviewStatus != .PASS_WITH_WARNINGS then (state, fs)
  else
    let fs1 := createSignal "compound" fs
    let state1 := { state with phase := .compounding }
    (state1, saveStateFs state1 fs1)

/-- Primitive filesystem operations, used to record the exact sequence of
calls saveState issues, so that the publication mechanism of the state file
(plain write versus atomic rename) can be stated. -/
inductive FsOp where
  | mkdirRec (path : String)
  | writeFile (path : String) (content : String)
  | readFile (path : String)
  | unlink (path : String)
  | rename (src : String) (dst : String)
deriving DecidableEq, Repr

/-- Boolean test for the atomic-rename operation. -/
def FsOp.isRename : FsOp → Bool
  | .rename _ _ => true
  | _ => false

/-- Path of the persisted state record. -/
def statePath : String := ".workflow/state.json"

/-- Path of the temporary file saveState writes first. -/
def tempStatePath : String := ".workflow/state.json.tmp"

/-- Operation trace of source saveState, line by line: optionally create
the signals directory, write the serialized record to the temporary path,
read the temporary path back, write its content directly to the final state
path with writeFileSync, and unlink the temporary file.  No rename call
appears anywhere in the source function. -/
def saveStateOps (signalsDirMissing : Bool) (json : String) : List FsOp :=
  (if signalsDirMissing then [FsOp.mkdirRec ".workflow/signals"] else []) ++
  [FsOp.writeFile tempStatePath json,
   FsOp.readFile tempStatePath,
   FsOp.writeFile statePath json,
   FsOp.unlink tempStatePath]

/-- Replace the binding of a key in an association list, appending a new
binding when the key is absent (directory overwrite semantics for a
branch-session directory). -/
def updateAssoc (l : List (String × SessionSnap)) (k : String) (v : SessionSnap) :
    List (String × SessionSnap) :=
  match l with
  | [] => [(k, v)]
  | (k', v') :: rest => if k' == k then (k, v) :: rest else (k', v') :: updateAssoc rest k v

/-- The empty branch-session directory (no state file, no signals dir). -/
def emptySnap : SessionSnap :=
  { stateFileExists := false, stateFileParse := none, sessionSignals := none }

/-- Source saveSessionToBranch: load the current state, write it (tagged
with the branch name and a fresh timestamp) into the branch session
directory, and copy the current signal markers into the session's signals
subdirectory — creating that subdirectory only when at least one signal is
currently set, and never clearing files already in it. -/
def saveSessionToBranch (branch : String) (fs : Fs) : Fs :=
  let currentState := loadState fs
  let old := (fs.sessions.lookup branch).getD emptySnap
  let stateWithBranch :=
    { currentState with branchName := some branch, lastUpdated := fs.now }
  let snap1 := { old with stateFileExists := true, stateFileParse := some stateWithBranch }
  let currentSignals := getSignals fs
  let copied :=
    currentSignals.foldl (fun acc nm => addFile acc (nm ++ ".done"))
      (snap1.sessionSignals.getD [])
  let snap2 :=
    if currentSignals.length > 0 then { snap1 with sessionSignals := some copied }
    else snap1
  { fs with sessions := updateAssoc fs.sessions branch snap2 }

/-- The signal-restoring loop of loadSessionFromBranch: for every file of
the snapshot's signals subdirectory ending in ".done", re-create the signal
named by the file with its first ".done" removed. -/
def restoreSignals (files : List String) (fs : Fs) : Fs :=
  files.foldl (fun acc f => if endsDone f then createSignal (stripDone f) acc else acc) fs

/-- Source loadSessionFromBranch: null when the branch has no session state
file or it fails to parse; otherwise persist the snapshot state as the main
workflow state, and — only when the snapshot has a signals subdirectory —
clear all live signals and re-create the snapshot's signals. -/
def loadSessionFromBranch (branch : String) (fs : Fs) : Option WorkflowState × Fs :=
  match fs.sessions.lookup branch with
  | none => (none, fs)
  | some snap =>
    if !snap.stateFileExists then (none, fs)
    else
      match snap.stateFileParse with
      | none => (none, fs)
      | some branchState =>
        let fs1 := saveStateFs branchState fs
        let fs2 :=
          match snap.sessionSignals with
          | none => fs1
          | some sf => restoreSignals sf (clearAllSignals fs1)
        (some branchState, fs2)

/-- Review classifier as the specification sentence states it: PENDING
whenever the review signal is absent or the artifact is missing or
unreadable, regardless of text; otherwise PASS_WITH_WARNINGS for text
containing the pass marker together with a warnings marker,
PASS for the pass marker alone, FAIL for the fail marker, and PENDING for
any other text.  Compared against getReviewStatus by theorem below. -/
def classifyReviewSpec (reviewSignal : Bool) (artifact : Option String) : ReviewStatus :=
  match artifact with
  | none => .PENDING
  | some text =>
    if !reviewSignal then .PENDING
    else if strIncludes text "STATUS: PASS" then
      if strIncludes text "PASS_WITH_WARNINGS" ||
          (strIncludes text "Warnings" && strIncludes text "Non-blocking") then
        .PASS_WITH_WARNINGS
      else .PASS
    else if strIncludes text "STATUS: FAIL" then .FAIL
    else .PENDING

/-! Concrete scenario fixtures used by the closed evaluation theorems. -/

/-- A bare workspace: no signals directory, no artifacts, no state file. -/
def fsEmpty : Fs :=
  { signalsDir := none
    reviewFileExists := false
    reviewFileContent := none
    planFileExists := false
    stateFileExists := false
    stateFileParse := none
    sessions := []
    now := "T0" }

/-- A state record sitting in the reviewing phase at iteration 1. -/
def stReviewing : WorkflowState :=
  { phase := .reviewing
    iteration := 1
    commitCount := 0
    signals := ["backend", "frontend", "tests", "review"]
    lastUpdated := "T0" }

/-- The reviewing-phase record at the iteration cap. -/
def stIterCap : WorkflowState := { stReviewing with iteration := 3 }

/-- The signal record of the precedence test of the specification:
compound, backend, frontend, tests and review all present. -/
def sigAllRace : List String := ["compound", "backend", "frontend", "tests", "review"]

/-- A workspace whose signal markers match `sigAllRace` and whose review
artifact reads STATUS: FAIL. -/
def fsFailAll : Fs :=
  { fsEmpty with
      signalsDir := some (sigAllRace.map (fun n => n ++ ".done"))
      reviewFileExists := true
      reviewFileContent := some "STATUS: FAIL" }

/-- A workspace with only the review signal set and a failing review. -/
def fsFailReview : Fs :=
  { fsEmpty with
      signalsDir := some ["review.done"]
      reviewFileExists := true
      reviewFileContent := some "STATUS: FAIL" }

/-- A signal record with review present and two of three refine signals. -/
def sigTwoRefines : List String := ["review", "backend-refine", "frontend-refine"]

/-- A workspace holding only a planning artifact. -/
def fsPlanOnly : Fs := { fsEmpty with planFileExists := true }

/-- The planning-artifact workspace with an unrelated field changed (a
state file now exists); its review/plan quadruple matches `fsPlanOnly`. -/
def fsPlanOnlyAlt : Fs := { fsPlanOnly with stateFileExists := true }

/-- A workspace whose state file exists but fails to parse. -/
def fsCorrupt : Fs := { fsEmpty with stateFileExists := true, stateFileParse := none }

/-- A workspace ready to compound: implementation and review signals set,
review artifact reads STATUS: PASS, planning artifact present, state file
holding the reviewing-phase record. -/
def fsPassAll : Fs :=
  { fsEmpty with
      signalsDir := some ["backend.done", "frontend.done", "tests.done", "review.done"]
      reviewFileExists := true
      reviewFileContent := some "STATUS: PASS"
      planFileExists := true
      stateFileExists := true
      stateFileParse := some stReviewing
      now := "T1" }

/-- A snapshot state record for the branch-session scenarios. -/
def stSnap : WorkflowState :=
  { phase := .implementing
    iteration := 1
    commitCount := 2
    signals := ["plan"]
    lastUpdated := "S0" }

/-- A branch session snapshot holding `stSnap` and one signal marker. -/
def snapPlan : SessionSnap :=
  { stateFileExists := true
    stateFileParse := some stSnap
    sessionSignals := some ["plan.done"] }

/-- A live workspace with a backend signal set and the `snapPlan` session
saved under branch "feat". -/
def fsWithSession : Fs :=
  { fsEmpty with
      signalsDir := some ["backend.done"]
      sessions := [("feat", snapPlan)] }

/-- A workspace with a parsable state file and no signals at all. -/
def fsNoSignals : Fs := { fsEmpty with stateFileExists := true, stateFileParse := some stSnap }

/-- The workspace after saving the signal-less session under "feat": the
saved snapshot records no signals directory. -/
def fsSavedEmpty : Fs := saveSessionToBranch "feat" fsNoSignals

/-- The same workspace after a backend signal later appears live. -/
def fsLiveLater : Fs := createSignal "backend" fsSavedEmpty

/-! Helper lemmas about the JavaScript-style substring operations. -/

theorem leadsWith_append_self (pat s : List Char) : leadsWith pat (pat ++ s) = true := by
  induction pat with
  | nil => rfl
  | cons p ps ih => simp [leadsWith, ih]

theorem leadsWith_append_of_le (pat l s : List Char) (h : pat.length ≤ l.length) :
    leadsWith pat (l ++ s) = leadsWith pat l := by
  induction pat generalizing l with
  | nil => rfl
  | cons p ps ih =>
    cases l with
    | nil => simp at h
    | cons c cs =>
      show (p == c && leadsWith ps (cs ++ s)) = (p == c && leadsWith ps cs)
      rw [ih cs (by simpa using h)]

theorem no_straddle (l : List Char) (hne : l ≠ []) (hlen : l.length < 5) :
    leadsWith ".done".toList (l ++ ".done".toList) = false := by
  match l with
  | [] => exact absurd rfl hne
  | [a] =>
    show (('.' == a) && leadsWith ['d', 'o', 'n', 'e'] ".done".toList) = false
    rw [show leadsWith ['d', 'o', 'n', 'e'] ".done".toList = false from by decide]
    exact Bool.and_false _
  | [a, b] =>
    show (('.' == a) && (('d' == b) && leadsWith ['o', 'n', 'e'] ".done".toList)) = false
    rw [show leadsWith ['o', 'n', 'e'] ".done".toList = false from by decide]
    simp
  | [a, b, c] =>
    show (('.' == a) && (('d' == b) && (('o' == c) &&
      leadsWith ['n', 'e'] ".done".toList))) = false
    rw [show leadsWith ['n', 'e'] ".done".toList = false from by decide]
    simp
  | [a, b, c, d] =>
    show (('.' == a) && (('d' == b) && (('o' == c) && (('n' == d) &&
      leadsWith ['e'] ".done".toList)))) = false
    rw [show leadsWith ['e'] ".done".toList = false from by decide]
    simp
  | a :: b :: c :: d :: e :: rest =>
    simp only [List.length_cons] at hlen
    omega

theorem removeFirst_done_append (name : List Char)
    (h : hasSub ".done".toList name = false) :
    removeFirstSub ".done".toList (name ++ ".done".toList) = name := by
  induction name with
  | nil => decide
  | cons c cs ih =>
    have hsplit : leadsWith ".done".toList (c :: cs) = false ∧
        hasSub ".done".toList cs = false := by
      simpa [hasSub] using h
    have hlw : leadsWith ".done".toList ((c :: cs) ++ ".done".toList) = false := by
      by_cases hlen : 5 ≤ (c :: cs).length
      · rw [show ((c :: cs) ++ ".done".toList) = (c :: cs) ++ ".done".toList from rfl,
          leadsWith_append_of_le _ _ _ (by simpa using hlen)]
        exact hsplit.1
      · exact no_straddle _ (by simp) (by omega)
    show (if leadsWith ".done".toList (c :: (cs ++ ".done".toList))
        then (c :: (cs ++ ".done".toList)).drop ".done".toList.length
        else c :: removeFirstSub ".done".toList (cs ++ ".done".toList)) = c :: cs
    rw [show (c :: (cs ++ ".done".toList)) = (c :: cs) ++ ".done".toList from rfl, hlw]
    simp only [Bool.false_eq_true, if_false]
    exact congrArg (c :: ·) (ih hsplit.2)

theorem toList_append (a b : String) : (a ++ b).toList = a.toList ++ b.toList := rfl

theorem mk_toList (s : String) : String.mk s.toList = s := rfl

theorem stripDone_append (nm : String) (h : strIncludes nm ".done" = false) :
    stripDone (nm ++ ".done") = nm := by
  unfold stripDone
  rw [toList_append, removeFirst_done_append nm.toList h, mk_toList]

theorem endsDone_append (nm : String) : endsDone (nm ++ ".done") = true := by
  unfold endsDone trailsWith
  rw [toList_append, List.reverse_append]
  exact leadsWith_append_self _ _

theorem mem_addFile (l : List String) (f g : String) :
    g ∈ addFile l f ↔ g ∈ l ∨ g = f := by
  unfold addFile
  by_cases hc : l.contains f = true
  · have hf : f ∈ l := by simpa using hc
    simp only [hc, if_true]
    constructor
    · exact Or.inl
    · rintro (h | rfl)
      · exact h
      · exact hf
  · rw [if_neg (by simpa using hc)]
    simp [List.mem_append]

theorem mem_getSignals (fs : Fs) (n : String) :
    n ∈ getSignals fs ↔
      ∃ f, f ∈ fs.signalsDir.getD [] ∧ endsDone f = true ∧ n = stripDone f := by
  cases h : fs.signalsDir with
  | none => simp [getSignals, h]
  | some files =>
    simp only [getSignals, h, Option.getD_some, List.mem_map, List.mem_filter]
    constructor
    · rintro ⟨f, ⟨hf, he⟩, rfl⟩
      exact ⟨f, hf, he, rfl⟩
    · rintro ⟨f, hf, he, rfl⟩
      exact ⟨f, ⟨hf, he⟩, rfl⟩

theorem mem_getSignals_createSignal (nm : String) (fs : Fs) (n : String) :
    n ∈ getSignals (createSignal nm fs) ↔
      n ∈ getSignals fs ∨ n = stripDone (nm ++ ".done") := by
  rw [mem_getSignals, mem_getSignals]
  show (∃ f, f ∈ addFile (fs.signalsDir.getD []) (nm ++ ".done") ∧
      endsDone f = true ∧ n = stripDone f) ↔ _
  constructor
  · rintro ⟨f, hf, he, rfl⟩
    rcases (mem_addFile _ _ _).mp hf with h | rfl
    · exact Or.inl ⟨f, h, he, rfl⟩
    · exact Or.inr rfl
  · rintro (⟨f, hf, he, rfl⟩ | rfl)
    · exact ⟨f, (mem_addFile _ _ _).mpr (Or.inl hf), he, rfl⟩
    · exact ⟨nm ++ ".done", (mem_addFile _ _ _).mpr (Or.inr rfl),
        endsDone_append nm, rfl⟩

theorem getSignals_clearAllSignals (fs : Fs) : getSignals (clearAllSignals fs) = [] := by
  cases h : fs.signalsDir with
  | none => simp [clearAllSignals, h, getSignals]
  | some files =>
    simp only [clearAllSignals, h, getSignals, List.filter_filter]
    rw [List.eq_nil_iff_forall_not_mem]
    intro x hx
    rcases List.mem_map.mp hx with ⟨f, hf, _⟩
    rcases List.mem_filter.mp hf with ⟨_, hcond⟩
    simp at hcond

theorem beq_phase (a b : Phase) : (a == b) = decide (a = b) := rfl

theorem beq_review (a b : ReviewStatus) : (a == b) = decide (a = b) := rfl

theorem getSignals_saveStateFs (st : WorkflowState) (fs : Fs) :
    getSignals (saveStateFs st fs) = getSignals fs := by
  cases h : fs.signalsDir <;> simp [saveStateFs, getSignals, h]

/-! Claim theorems. -/

/-- C1: the claim states that whenever the compound signal is present and
pr is absent, determinePhase returns compounding, with complete reserved
for pr; in particular the race input (compound, backend, frontend, tests,
review all present, review outcome FAIL) should yield compounding.  The
code instead returns complete whenever compound OR pr is present — its
first guard tests both signals, making the later compound-only branch that
would return compounding unreachable.  This theorem evaluates the embedded
code at the claim's own test input: the review outcome is FAIL, compound is
present, pr is absent, and the computed phase is complete, not
compounding. -/
theorem determinePhase_compound_without_pr_yields_complete :
    getReviewStatus fsFailAll = ReviewStatus.FAIL ∧
    sigAllRace.contains "compound" = true ∧
    sigAllRace.contains "pr" = false ∧
    determinePhase sigAllRace fsFailAll = Phase.complete := by decide

/-- C3: the review classifier getReviewStatus agrees everywhere with the
classifier the claim describes — PENDING whenever the review signal is
absent, the artifact is missing, or the artifact is unreadable, regardless
of text; otherwise PASS_WITH_WARNINGS for text containing STATUS: PASS
together with the PASS_WITH_WARNINGS substring or both Warnings and
Non-blocking, PASS for STATUS: PASS without those, FAIL for STATUS: FAIL,
and PENDING for any other text.  Both sides are total functions, so no
input raises an error. -/
theorem getReviewStatus_matches_classifier_contract (fs : Fs) :
    getReviewStatus fs =
      classifyReviewSpec ((getSignals fs).contains "review")
        (if fs.reviewFileExists then fs.reviewFileContent else none) := by
  cases hex : fs.reviewFileExists <;>
    cases hc : fs.reviewFileContent <;>
      by_cases hsig : "review" ∈ getSignals fs <;>
        simp [getReviewStatus, classifyReviewSpec, hex, hc, hsig]

/-- C6 counterexample: determinePhase does not depend only on the triple
(signals, review artifact text, review signal presence): two filesystems
agreeing on that whole triple but differing in the existence of PLAN.md
produce different phases (planning versus init) for the empty signal
record. -/
theorem determinePhase_reads_beyond_review_triple :
    fsPlanOnly.reviewFileExists = fsEmpty.reviewFileExists ∧
    fsPlanOnly.reviewFileContent = fsEmpty.reviewFileContent ∧
    (getSignals fsPlanOnly).contains "review" = (getSignals fsEmpty).contains "review" ∧
    determinePhase [] fsPlanOnly ≠ determinePhase [] fsEmpty := by decide

/-- C6 amended: determinePhase is deterministic and its result depends on
nothing outside the quadruple (signal record, review artifact existence
and text, review signal presence, planning artifact existence): any two
filesystem states agreeing on the review artifact, the live review signal
and PLAN.md existence give the same phase for the same signal record. -/
theorem determinePhase_depends_only_on_quadruple (s : List String) (fs1 fs2 : Fs)
    (hre : fs1.reviewFileExists = fs2.reviewFileExists)
    (hrc : fs1.reviewFileContent = fs2.reviewFileContent)
    (hrs : (getSignals fs1).contains "review" = (getSignals fs2).contains "review")
    (hpl : fs1.planFileExists = fs2.planFileExists) :
    determinePhase s fs1 = determinePhase s fs2 := by
  have hrev : getReviewStatus fs1 = getReviewStatus fs2 := by
    unfold getReviewStatus
    rw [hre, hrc, hrs]
  unfold determinePhase
  rw [hrev, hpl]

/-- C6 witness: two concrete filesystem states agreeing on the quadruple
but differing elsewhere (a state file exists in one) give equal phases. -/
theorem determinePhase_depends_witness :
    determinePhase [] fsPlanOnly = determinePhase [] fsPlanOnlyAlt :=
  determinePhase_depends_only_on_quadruple [] fsPlanOnly fsPlanOnlyAlt rfl rfl rfl rfl

/-- C8: the claim states that saveState publishes the state record through
a temporary location followed by a single atomic rename/replace, so a
concurrent reader never sees a partial record.  The operation trace of the
source function shows otherwise: after writing the temporary file it
publishes by a second plain writeFileSync directly to the final state
path — a truncate-then-write that a concurrent reader can observe
partially — and the trace contains no rename operation at all, for every
state content and whether or not the signals directory existed.  The
source's own comment labels this block an atomic write, which the trace
contradicts. -/
theorem saveState_publishes_by_plain_write (missing : Bool) (json : String) :
    (saveStateOps missing json).all (fun op => ! op.isRename) = true ∧
    FsOp.writeFile statePath json ∈ saveStateOps missing json := by
  cases missing <;> simp [saveStateOps, FsOp.isRename]

/-- C9: loadState returns the freshly-initialized record (phase init,
iteration 1, commitCount 0, empty signal cache) whenever the persisted
record is absent or fails to parse; being a total function, it never
surfaces an error to the caller in those cases. -/
theorem loadState_missing_or_corrupt_returns_initial (fs : Fs)
    (h : fs.stateFileExists = false ∨ fs.stateFileParse = none) :
    loadState fs = getInitialState fs.now ∧
    (loadState fs).phase = Phase.init ∧
    (loadState fs).iteration = 1 ∧
    (loadState fs).commitCount = 0 ∧
    (loadState fs).signals = [] := by
  have hinit : loadState fs = getInitialState fs.now := by
    rcases h with h | h
    · simp [loadState, h]
    · cases hex : fs.stateFileExists <;> simp [loadState, h, hex]
  exact ⟨hinit, by rw [hinit]; rfl, by rw [hinit]; rfl, by rw [hinit]; rfl,
    by rw [hinit]; rfl⟩

/-- C9 witness: a workspace whose state file exists but fails to parse
loads as the initial record. -/
theorem loadState_corrupt_witness : loadState fsCorrupt = getInitialState "T0" :=
  (loadState_missing_or_corrupt_returns_initial fsCorrupt (Or.inr rfl)).1

/-- C10 counterexample: the signal-name round trip fails for a name
containing ".done" in its interior: creating the signal "a.doneb" writes
the marker "a.doneb.done", and getSignals — which removes only the FIRST
occurrence of ".done" — reads it back as "ab.done", so the returned set
does not contain "a.doneb". -/
theorem getSignals_mangles_inner_done_name :
    getSignals (createSignal "a.doneb" fsEmpty) = ["ab.done"] ∧
    ¬ ("a.doneb" ∈ getSignals (createSignal "a.doneb" fsEmpty)) := by decide

/-- C10 amended: for every signal name that does not contain the substring
".done", after createSignal the set returned by getSignals contains that
name (the marker written as the name with ".done" appended is read back as
the same name). -/
theorem createSignal_getSignals_roundtrip (name : String) (fs : Fs)
    (h : strIncludes name ".done" = false) :
    name ∈ getSignals (createSignal name fs) := by
  rw [mem_getSignals_createSignal]
  exact Or.inr (stripDone_append name h).symm

/-- C10 witness: the round trip at the concrete name "backend". -/
theorem createSignal_getSignals_roundtrip_witness :
    "backend" ∈ getSignals (createSignal "backend" fsEmpty) :=
  createSignal_getSignals_roundtrip "backend" fsEmpty (by decide)

/-- C2: when compound and pr are absent, review is present and the review
outcome is FAIL, determinePhase returns reviewing exactly when all three
refine signals (backend-refine, frontend-refine, tests-refine) are present
and refining otherwise. -/
theorem determinePhase_fail_refine_gate (s : List String) (fs : Fs)
    (hc : s.contains "compound" = false) (hp : s.contains "pr" = false)
    (hr : s.contains "review" = true)
    (hf : getReviewStatus fs = ReviewStatus.FAIL) :
    determinePhase s fs =
      (if s.contains "backend-refine" &&
          (s.contains "frontend-refine" && s.contains "tests-refine") then
        Phase.reviewing
      else Phase.refining) := by
  unfold determinePhase
  rw [hc, hp, hf, hr]
  by_cases hb : "backend-refine" ∈ s <;>
    by_cases hfr : "frontend-refine" ∈ s <;>
      by_cases ht : "tests-refine" ∈ s <;>
        simp [refineSignalNames, beq_review, hb, hfr, ht]

/-- C2 witness: with review present, a failing review and exactly two of
the three refine signals, the phase is refining. -/
theorem determinePhase_fail_refine_gate_witness :
    determinePhase sigTwoRefines fsFailReview = Phase.refining := by
  have h := determinePhase_fail_refine_gate sigTwoRefines fsFailReview
    (by decide) (by decide) (by decide) (by decide)
  exact h.trans (by decide)

/-- C4: handleDispatchRefine advances only when the current review outcome
is FAIL and the iteration is below 3, in which case it increments the
iteration by exactly one and clears no signals (the signal set read back
after the persist is unchanged); when the outcome is not FAIL, or the
iteration has reached 3, it refuses, leaving both the workflow state and
the filesystem — hence the signal set — completely unchanged. -/
theorem handleDispatchRefine_policy (fs : Fs) (st : WorkflowState) :
    (getReviewStatus fs = ReviewStatus.FAIL → st.iteration < 3 →
      (handleDispatchRefine fs st).1.iteration = st.iteration + 1 ∧
      getSignals (handleDispatchRefine fs st).2 = getSignals fs) ∧
    ((getReviewStatus fs ≠ ReviewStatus.FAIL ∨ 3 ≤ st.iteration) →
      handleDispatchRefine fs st = (st, fs)) := by
  constructor
  · intro hf hlt
    unfold handleDispatchRefine
    rw [hf]
    simp only [bne_self_eq_false, Bool.false_eq_true, if_false]
    rw [if_neg (by omega)]
    exact ⟨rfl, getSignals_saveStateFs _ _⟩
  · intro h
    unfold handleDispatchRefine
    by_cases hf : getReviewStatus fs = ReviewStatus.FAIL
    · rcases h with hne | hge
      · exact absurd hf hne
      · rw [hf]
        simp only [bne_self_eq_false, Bool.false_eq_true, if_false]
        rw [if_pos hge]
    · rw [if_pos (by simp [bne, beq_review, hf])]

/-- C4 witness: with a failing review, dispatch at iteration 1 advances to
iteration 2 with the signal set unchanged, and dispatch at iteration 3 is
refused with state and filesystem untouched. -/
theorem handleDispatchRefine_policy_witness :
    (handleDispatchRefine fsFailReview stReviewing).1.iteration = 2 ∧
    getSignals (handleDispatchRefine fsFailReview stReviewing).2 =
      getSignals fsFailReview ∧
    handleDispatchRefine fsFailReview stIterCap = (stIterCap, fsFailReview) := by
  have hadv := (handleDispatchRefine_policy fsFailReview stReviewing).1
    (by decide) (by decide)
  have href := (handleDispatchRefine_policy fsFailReview stIterCap).2
    (Or.inr (by decide))
  exact ⟨hadv.1, hadv.2, href⟩

/-- C5 counterexample: the phase-cache invariant does not hold across
every state-persisting operation.  Starting from a workspace with a
passing review, handleDispatchCompound creates the compound signal and
persists phase compounding, while determinePhase applied to the signal set
current at that save returns complete, so the persisted phase diverges
from its claimed derivation. -/
theorem handleDispatchCompound_breaks_phase_cache :
    (handleDispatchCompound fsPassAll stReviewing).1.phase = Phase.compounding ∧
    (handleDispatchCompound fsPassAll stReviewing).2.stateFileParse =
      some { (handleDispatchCompound fsPassAll stReviewing).1 with lastUpdated := "T1" } ∧
    determinePhase (getSignals (handleDispatchCompound fsPassAll stReviewing).2)
        (handleDispatchCompound fsPassAll stReviewing).2 = Phase.complete ∧
    Phase.complete ≠ Phase.compounding := by decide

/-- C5 amended: the invariant holds for updateStateFromSignals, the
operation the refresh path uses: it always persists a record whose phase
equals determinePhase applied to the signal set read at the save and whose
signal cache equals that signal set; but it does not extend to every
state-persisting operation, since handleDispatchCompound persists phase
compounding while the derivation over the then-current signals yields
complete. -/
theorem updateStateFromSignals_phase_is_derived (fs : Fs) :
    (updateStateFromSignals fs).1.phase = determinePhase (getSignals fs) fs ∧
    (updateStateFromSignals fs).1.signals = getSignals fs ∧
    (updateStateFromSignals fs).2.stateFileParse =
      some { (updateStateFromSignals fs).1 with lastUpdated := fs.now } := by
  have h1 : (updateStateFromSignals fs).1.phase = determinePhase (getSignals fs) fs := by
    unfold updateStateFromSignals
    by_cases h : determinePhase (getSignals fs) fs = (loadState fs).phase
    · simp [bne, beq_phase, h]
    · simp [bne, beq_phase, h]
  exact ⟨h1, rfl, rfl⟩

theorem restoreSignals_cons (f : String) (rest : List String) (fs : Fs) :
    restoreSignals (f :: rest) fs =
      restoreSignals rest (if endsDone f then createSignal (stripDone f) fs else fs) := rfl

theorem mem_getSignals_restoreSignals (files : List String) (fs : Fs) (n : String) :
    n ∈ getSignals (restoreSignals files fs) ↔
      n ∈ getSignals fs ∨
        ∃ f, f ∈ files ∧ endsDone f = true ∧ n = stripDone (stripDone f ++ ".done") := by
  induction files generalizing fs with
  | nil => simp [restoreSignals]
  | cons f rest ih =>
    rw [restoreSignals_cons, ih]
    by_cases he : endsDone f = true
    · rw [if_pos he, mem_getSignals_createSignal]
      constructor
      · rintro ((hm | hnew) | ⟨g, hg, hge, hn⟩)
        · exact Or.inl hm
        · exact Or.inr ⟨f, List.mem_cons_self f rest, he, hnew⟩
        · exact Or.inr ⟨g, List.mem_cons_of_mem f hg, hge, hn⟩
      · rintro (hm | ⟨g, hg, hge, hn⟩)
        · exact Or.inl (Or.inl hm)
        · rcases List.mem_cons.mp hg with rfl | hg'
          · exact Or.inl (Or.inr hn)
          · exact Or.inr ⟨g, hg', hge, hn⟩
    · rw [if_neg he]
      constructor
      · rintro (hm | ⟨g, hg, hge, hn⟩)
        · exact Or.inl hm
        · exact Or.inr ⟨g, List.mem_cons_of_mem f hg, hge, hn⟩
      · rintro (hm | ⟨g, hg, hge, hn⟩)
        · exact Or.inl hm
        · rcases List.mem_cons.mp hg with rfl | hg'
          · exact absurd hge he
          · exact Or.inr ⟨g, hg', hge, hn⟩

theorem restoreSignals_stateFileParse (files : List String) (fs : Fs) :
    (restoreSignals files fs).stateFileParse = fs.stateFileParse := by
  induction files generalizing fs with
  | nil => rfl
  | cons f rest ih =>
    rw [restoreSignals_cons, ih]
    by_cases he : endsDone f = true
    · rw [if_pos he]
      rfl
    · rw [if_neg he]

theorem clearAllSignals_stateFileParse (fs : Fs) :
    (clearAllSignals fs).stateFileParse = fs.stateFileParse := by
  cases h : fs.signalsDir <;> simp [clearAllSignals, h]

/-- C7 counterexample: restore is not a full signal-set replacement for
every saved snapshot.  Saving a session while no signal is set records no
signals subdirectory; after a backend signal later appears live, restoring
that branch succeeds (it returns the snapshot state), yet the live signal
set still contains backend instead of the snapshot's empty set — nothing
was cleared. -/
theorem loadSessionFromBranch_empty_snapshot_not_replaced :
    (loadSessionFromBranch "feat" fsLiveLater).1.isSome = true ∧
    dirSignalNames ((fsLiveLater.sessions.lookup "feat").getD emptySnap).sessionSignals = [] ∧
    getSignals (loadSessionFromBranch "feat" fsLiveLater).2 = ["backend"] := by decide

/-- C7 amended: for every saved branch snapshot that recorded a signals
subdirectory (holding markers named by a signal name, free of ".done",
with ".done" appended), a successful restore performs a full replacement:
the returned state is the snapshot state, it is persisted as the main
workflow state, and the live signal set afterwards equals exactly the
snapshot's signal set, pre-existing live signals having been cleared
first.  Snapshots that recorded no signals subdirectory leave the live
signal set untouched, as the counterexample shows. -/
theorem loadSessionFromBranch_replaces_signals
    (branch : String) (fs : Fs) (snap : SessionSnap) (st : WorkflowState)
    (sf : List String)
    (hlk : fs.sessions.lookup branch = some snap)
    (hex : snap.stateFileExists = true)
    (hps : snap.stateFileParse = some st)
    (hsf : snap.sessionSignals = some sf)
    (hnm : ∀ f ∈ sf, ∃ nm, f = nm ++ ".done" ∧ strIncludes nm ".done" = false) :
    (loadSessionFromBranch branch fs).1 = some st ∧
    (loadSessionFromBranch branch fs).2.stateFileParse =
      some { st with lastUpdated := fs.now } ∧
    ∀ n, n ∈ getSignals (loadSessionFromBranch branch fs).2 ↔
      n ∈ dirSignalNames snap.sessionSignals := by
  have hred : loadSessionFromBranch branch fs =
      (some st, restoreSignals sf (clearAllSignals (saveStateFs st fs))) := by
    unfold loadSessionFromBranch
    rw [hlk]
    simp [hex, hps, hsf]
  rw [hred, hsf]
  refine ⟨rfl, ?_, ?_⟩
  · rw [restoreSignals_stateFileParse, clearAllSignals_stateFileParse]
    rfl
  · intro n
    rw [mem_getSignals_restoreSignals, getSignals_clearAllSignals]
    simp only [List.not_mem_nil, false_or]
    show _ ↔ n ∈ (sf.filter (fun f => endsDone f)).map (fun f => stripDone f)
    constructor
    · rintro ⟨f, hf, hfe, hn⟩
      rcases hnm f hf with ⟨nm, rfl, hnd⟩
      rw [List.mem_map]
      refine ⟨nm ++ ".done", List.mem_filter.mpr ⟨hf, by simpa using hfe⟩, ?_⟩
      rw [stripDone_append nm hnd] at hn ⊢
      rw [hn, stripDone_append nm hnd]
    · intro hn
      rcases List.mem_map.mp hn with ⟨f, hf, rfl⟩
      rcases List.mem_filter.mp hf with ⟨hfs, hfe⟩
      rcases hnm f hfs with ⟨nm, rfl, hnd⟩
      refine ⟨nm ++ ".done", hfs, endsDone_append nm, ?_⟩
      rw [stripDone_append nm hnd, stripDone_append nm hnd]

/-- C7 witness: restoring the concrete "feat" session (one plan marker in
the snapshot, a backend signal live beforehand) returns the snapshot
state, and the live set afterwards agrees with the snapshot set on the
plan and backend signals: plan is present, backend is gone. -/
theorem loadSessionFromBranch_replaces_signals_witness :
    (loadSessionFromBranch "feat" fsWithSession).1 = some stSnap ∧
    ("plan" ∈ getSignals (loadSessionFromBranch "feat" fsWithSession).2 ↔
      "plan" ∈ dirSignalNames snapPlan.sessionSignals) ∧
    ("backend" ∈ getSignals (loadSessionFromBranch "feat" fsWithSession).2 ↔
      "backend" ∈ dirSignalNames snapPlan.sessionSignals) := by
  have h := loadSessionFromBranch_replaces_signals "feat" fsWithSession snapPlan
    stSnap ["plan.done"] rfl rfl rfl rfl
    (by
      intro f hf
      have hfe : f = "plan.done" := by simpa using hf
      subst hfe
      exact ⟨"plan", rfl, by decide⟩)
  exact ⟨h.1, h.2.2 "plan", h.2.2 "backend"⟩

end CEOrch
